import Mathlib

/-!
Verification of the multivariate-statistics modules (manova.py, factor.py) of
the statsmodels fork: a shallow embedding of the numerical algorithms, with
machine floats modelled by exact rationals or real numbers, and the external
linear-algebra kernel (numpy.linalg) modelled by Mathlib operations or by
explicit function parameters.
-/

set_option maxHeartbeats 1600000

namespace Spec2Proof

/-! ## MANOVA fitting: fit_manova (manova.py, lines 17-51) -/

/-- Output bundle of `fit_manova`: the tuple `(params, df_resid, inv_cov, sscpr)`. -/
structure ManovaFit (q p : ℕ) where
  params : Matrix (Fin q) (Fin p) ℚ
  df_resid : ℤ
  inv_cov : Matrix (Fin q) (Fin q) ℚ
  sscpr : Matrix (Fin p) (Fin p) ℚ

/-- Embedding of `fit_manova(x, y)` (manova.py lines 17-51).  The external
linear-algebra kernel's pseudo-inverse (`numpy.linalg.pinv`) is passed in as the
parameter `pinv`; `numpy.linalg.inv` is modelled by Mathlib's matrix inverse,
which agrees with it on invertible matrices.  The row-count check
`nobs != nobs1` of the source is the dependent test `nobs = nobs1` here, and on
success `x` is transported to the common row index type. -/
noncomputable def fit_manova
    (pinv : {a b : ℕ} → Matrix (Fin a) (Fin b) ℚ → Matrix (Fin b) (Fin a) ℚ)
    {nobs1 nobs q p : ℕ}
    (x : Matrix (Fin nobs1) (Fin q) ℚ) (y : Matrix (Fin nobs) (Fin p) ℚ) :
    Except String (ManovaFit q p) :=
  if h : nobs = nobs1 then
    let x2 : Matrix (Fin nobs) (Fin q) ℚ := fun i j => x (Fin.cast h i) j
    let df_resid : ℤ := (nobs : ℤ) - (q : ℤ)
    let params := pinv x2 * y
    let inv_cov := (x2.transpose * x2)⁻¹
    let t := x2 * params
    let sscpr := y.transpose * y - t.transpose * t
    .ok ⟨params, df_resid, inv_cov, sscpr⟩
  else
    .error ("x(n=" ++ toString nobs1 ++ ") and y(n=" ++ toString nobs ++
      ") should have the same number of rows!")

/-- Regression coefficients as the spec words them: `params = pinv(X) . Y`. -/
noncomputable def paramsSpec
    (pinv : {a b : ℕ} → Matrix (Fin a) (Fin b) ℚ → Matrix (Fin b) (Fin a) ℚ)
    {n q p : ℕ} (x : Matrix (Fin n) (Fin q) ℚ) (y : Matrix (Fin n) (Fin p) ℚ) :
    Matrix (Fin q) (Fin p) ℚ :=
  pinv x * y

/-- The inverse of `X'X` as the spec words it. -/
noncomputable def invCovSpec {n q : ℕ} (x : Matrix (Fin n) (Fin q) ℚ) :
    Matrix (Fin q) (Fin q) ℚ :=
  (x.transpose * x)⁻¹

/-- Residual sums of squares and cross-products as the spec words it:
`Y'Y - (X params)'(X params)`. -/
noncomputable def sscprSpec
    (pinv : {a b : ℕ} → Matrix (Fin a) (Fin b) ℚ → Matrix (Fin b) (Fin a) ℚ)
    {n q p : ℕ} (x : Matrix (Fin n) (Fin q) ℚ) (y : Matrix (Fin n) (Fin p) ℚ) :
    Matrix (Fin p) (Fin p) ℚ :=
  y.transpose * y -
    (x * paramsSpec pinv x y).transpose * (x * paramsSpec pinv x y)

/-- Residual degrees of freedom as the spec words it: `n - q` (an integer,
since Python int subtraction may go negative). -/
def dfResidSpec (n q : ℕ) : ℤ := (n : ℤ) - (q : ℤ)

/-! ## Multivariate statistics routine (manova.py, lines 54-151) -/

/-- One row of the statistics table: Value, F Value, Num DF, Den DF, Pr > F. -/
structure StatRow where
  value : ℝ
  fValue : ℝ
  numDF : ℝ
  denDF : ℝ
  prF : ℝ

/-- The four rows produced by `multivariate_stats`. -/
structure MvStats where
  wilks : StatRow
  pillai : StatRow
  hotelling : StatRow
  roy : StatRow

/-- Embedding of `fn(x) = np.real([x])[0]`: the eigenvalues entering the
routine are modelled as real numbers, so taking the real part is the
identity. -/
def npReal (x : ℝ) : ℝ := x

/-- Embedding of `np.max` on a (nonempty) 1-d array; 0 on the empty array,
which numpy would reject. -/
def npMax : List ℝ → ℝ
  | [] => 0
  | x :: xs => xs.foldl max x

/-- Embedding of `multivariate_stats(eigenvals, p, q, df_resid)` (manova.py
lines 54-151).  The external distribution kernel `scipy.stats.f.sf` is the
parameter `fsf`.  Python's true division on ints becomes real division; the
integer test `p*p + q*q - 5 > 0` is written `5 < p*p + q*q` over ℕ, which is
equivalent.  `np.power(lmd, 1/t)` is real exponentiation `Real.rpow`. -/
noncomputable def multivariate_stats (fsf : ℝ → ℝ → ℝ → ℝ)
    (eigenvals : List ℝ) (p q : ℕ) (df_resid : ℤ) : MvStats :=
  let eigv2 := eigenvals
  let eigv1 := eigv2.map (fun i => i / (1 - i))
  let v : ℝ := (df_resid : ℝ)
  let s : ℝ := ((min p q : ℕ) : ℝ)
  let m : ℝ := (|(p : ℝ) - (q : ℝ)| - 1) / 2
  let n : ℝ := (v - (p : ℝ) - 1) / 2
  -- Wilks' lambda
  let wval : ℝ := npReal ((eigv2.map (fun i => 1 - i)).prod)
  let r : ℝ := v - ((p : ℝ) - (q : ℝ) + 1) / 2
  let u : ℝ := ((p : ℝ) * (q : ℝ) - 2) / 4
  let df1w : ℝ := (p : ℝ) * (q : ℝ)
  let t : ℝ :=
    if 5 < p * p + q * q then
      Real.sqrt (((p : ℝ) * p * q * q - 4) / ((p : ℝ) * p + (q : ℝ) * q - 5))
    else 1
  let df2w : ℝ := r * t - 2 * u
  let lmd : ℝ := Real.rpow wval (1 / t)
  let fw : ℝ := (1 - lmd) / lmd * df2w / df1w
  -- Pillai's trace
  let vstat : ℝ := npReal eigv2.sum
  let df1p : ℝ := s * (2 * m + s + 1)
  let df2p : ℝ := s * (2 * n + s + 1)
  let fp : ℝ := df2p / df1p * vstat / (s - vstat)
  -- Hotelling-Lawley trace
  let ustat : ℝ := npReal eigv1.sum
  let hl : ℝ × ℝ × ℝ :=
    if 0 < n then
      let b := ((p : ℝ) + 2 * n) * ((q : ℝ) + 2 * n) / 2 / (2 * n + 1) / (n - 1)
      let df1h := (p : ℝ) * (q : ℝ)
      let df2h := 4 + ((p : ℝ) * (q : ℝ) + 2) / (b - 1)
      let cc := (df2h - 2) / 2 / n
      (df1h, df2h, df2h / df1h * ustat / cc)
    else
      let df1h := s * (2 * m + s + 1)
      let df2h := s * (s * n + 1)
      (df1h, df2h, df2h / df1h / s * ustat)
  -- Roy's greatest root
  let sigma : ℝ := npReal (npMax eigv1)
  let r2 : ℝ := ((max p q : ℕ) : ℝ)
  let df1r : ℝ := r2
  let df2r : ℝ := v - r2 + (q : ℝ)
  let fr : ℝ := df2r / df1r * sigma
  { wilks := ⟨wval, fw, df1w, df2w, fsf fw df1w df2w⟩
    pillai := ⟨vstat, fp, df1p, df2p, fsf fp df1p df2p⟩
    hotelling := ⟨ustat, hl.2.2, hl.1, hl.2.1, fsf hl.2.2 hl.1 hl.2.1⟩
    roy := ⟨sigma, fr, df1r, df2r, fsf fr df1r df2r⟩ }

/-- Wilks' lambda Value following the spec's words: the product of (1 - λᵢ). -/
noncomputable def wilksValueSpec (eigenvals : List ℝ) : ℝ :=
  (eigenvals.map (fun l => 1 - l)).prod

/-- Rao approximation `r = v - (p - q + 1)/2` following the spec's words. -/
noncomputable def wilksRSpec (p q : ℕ) (v : ℤ) : ℝ :=
  (v : ℝ) - ((p : ℝ) - (q : ℝ) + 1) / 2

/-- Rao approximation `u = (pq - 2)/4` following the spec's words. -/
noncomputable def wilksUSpec (p q : ℕ) : ℝ := ((p : ℝ) * (q : ℝ) - 2) / 4

/-- Rao approximation `t = sqrt((p²q² - 4)/(p² + q² - 5))` when `p² + q² - 5 > 0`
and `t = 1` otherwise, following the spec's words (the test is on integers). -/
noncomputable def wilksTSpec (p q : ℕ) : ℝ :=
  if 5 < p * p + q * q then
    Real.sqrt (((p : ℝ) * p * q * q - 4) / ((p : ℝ) * p + (q : ℝ) * q - 5))
  else 1

/-- Wilks `df1 = pq` following the spec's words. -/
noncomputable def wilksDf1Spec (p q : ℕ) : ℝ := (p : ℝ) * (q : ℝ)

/-- Wilks `df2 = rt - 2u` following the spec's words. -/
noncomputable def wilksDf2Spec (p q : ℕ) (v : ℤ) : ℝ :=
  wilksRSpec p q v * wilksTSpec p q - 2 * wilksUSpec p q

/-- Wilks F statistic `(1 - Λ^(1/t))/Λ^(1/t) · df2/df1` following the spec's
words. -/
noncomputable def wilksFSpec (eigenvals : List ℝ) (p q : ℕ) (v : ℤ) : ℝ :=
  (1 - Real.rpow (wilksValueSpec eigenvals) (1 / wilksTSpec p q)) /
      Real.rpow (wilksValueSpec eigenvals) (1 / wilksTSpec p q) *
    wilksDf2Spec p q v / wilksDf1Spec p q

/-! ## MANOVA.test: default hypotheses (manova.py, lines 286-299) -/

/-- Embedding of the default-hypothesis loop of `MANOVA.test` when no
hypothesis is supplied and `design_info is None` (manova.py lines 293-299),
iterated over the given index list.  The statement `L[i] = 1` on the 1 × q
zero matrix `np.zeros([1, q])` follows numpy basic-indexing semantics: index
`i` selects ROW `i` of the 2-d array, so for `i = 0` the whole first row is
set to 1 by broadcasting, while for `i ≥ 1` an IndexError is raised because
axis 0 has size 1. -/
def defaultHypothesesAux (q : ℕ) :
    List ℕ → Except String (List (String × Matrix (Fin 1) (Fin q) ℚ))
  | [] => .ok []
  | i :: rest =>
    if i < 1 then
      (defaultHypothesesAux q rest).map
        (fun tail => ("x" ++ toString i, fun _ _ => 1) :: tail)
    else
      .error ("IndexError: index " ++ toString i ++
        " is out of bounds for axis 0 with size 1")

/-- The default hypothesis list built by `MANOVA.test` for a q-column exog
matrix without design info: the loop `for i in range(q)`. -/
def defaultHypotheses (q : ℕ) :
    Except String (List (String × Matrix (Fin 1) (Fin q) ℚ)) :=
  defaultHypothesesAux q (List.range q)

/-- The contrast matrix the claim (and the source's docstring) intends for
column `i`: a single 1 in column `i`, zero elsewhere. -/
def unitContrast (q : ℕ) (i : Fin q) : Matrix (Fin 1) (Fin q) ℚ :=
  fun _ j => if j = i then 1 else 0

/-! ## MANOVA.test: hypothesis shape validation (manova.py, lines 302-316) -/

/-- Embedding of the shape-validation block of `MANOVA.test` for one
hypothesis tuple (manova.py lines 302-316), at the level of numpy `.shape`
tuples (`Lshape`, and `Mshape` when a transform matrix is given).  The
transform-matrix error message interpolates `M.shape[0]` and
`self.exog.shape[1]` — exactly as the source does (note: exog, not endog). -/
def checkHypothesisShapes (exogCols endogCols : ℕ)
    (Lshape : List ℕ) (Mshape : Option (List ℕ)) : Except String Unit :=
  if Lshape.length ≠ 2 then
    .error "Contrast matrix L must be a 2-d array!"
  else if Lshape.getD 1 0 ≠ exogCols then
    .error ("Contrast matrix L should have the same number of columns as exog! "
      ++ toString (Lshape.getD 1 0) ++ " != " ++ toString exogCols)
  else
    match Mshape with
    | none => .ok ()
    | some ms =>
      if ms.length ≠ 2 then
        .error "Transform matrix M must be a 2-d array!"
      else if ms.getD 0 0 ≠ endogCols then
        .error ("Transform matrix M should have the same number of rows as the number of columns of endog! "
          ++ toString (ms.getD 0 0) ++ " != " ++ toString exogCols)
      else .ok ()

/-- The transform-matrix mismatch message the claim requires: it cites M's row
count and the number of endog columns. -/
def transformErrorMsgSpec (mRows endogCols : ℕ) : String :=
  "Transform matrix M should have the same number of rows as the number of columns of endog! "
    ++ toString mRows ++ " != " ++ toString endogCols

/-! ## Cancorr.fit: singular-vector scaling and clipping (manova.py, 368-444) -/

/-- The eigenvalue tolerance `e = 1e-8` of `Cancorr.fit` (manova.py line
378). -/
def svTolerance : ℚ := 1 / 100000000

/-- Embedding of the singular-vector scaling loop of `Cancorr.fit` (manova.py
lines 381-386, and identically 389-394): walking the columns of `V.T` in
order (paired with the singular values), each column is divided by its
singular value while the singular value exceeds the tolerance; at the first
singular value at or under the tolerance the loop breaks, leaving that column
and every later column unscaled. -/
def scaleColsBySV : List ℚ → List (List ℚ) → List (List ℚ)
  | sv :: ss, col :: cs =>
    if svTolerance < sv then (col.map fun x => x / sv) :: scaleColsBySV ss cs
    else col :: cs
  | _, cs => cs

/-- Embedding of the roundoff correction of `Cancorr.fit` (manova.py line
398): every singular value of the cross SVD is clipped into [0, 1] by
`max(0, min(s[i], 1))`. -/
def cancorrClip (s : List ℚ) : List ℚ := s.map fun x => max 0 (min x 1)

/-! ## FactorResults.rotate (factor.py, lines 148-185) -/

/-- State of a `FactorResults` object, as far as rotation is concerned.  The
loadings matrices are kept abstract (any type `A`), since the rotation
numerics are an external collaborator module. -/
structure FactorResultsState (A : Type) where
  loadings_no_rot : A
  loadings : A
  rotation_method : Option String

/-- The enumerated set of rotation method names accepted by
`FactorResults.rotate` (factor.py lines 174-176). -/
def rotationMethods : List String :=
  ["varimax", "quartimax", "biquartimax", "equamax", "oblimin", "parsimax",
   "parsimony", "biquartimin", "promax"]

/-- The subset dispatched directly through `rotate_factors` (factor.py lines
179-180). -/
def orthomaxMethods : List String :=
  ["varimax", "quartimax", "biquartimax", "equamax", "parsimax", "parsimony",
   "biquartimin"]

/-- Embedding of `FactorResults.rotate(method)` (factor.py lines 163-185).
`rotate_factors` and `promax` are the external rotation kernels (the source
discards their transform-matrix second output, so they are modelled as
returning only the rotated loadings).  A Python exception does not roll back
attribute writes already made, so the embedding returns the post-call object
state together with the raised error, if any: `self.rotation_method` is
assigned before the membership check. -/
def rotate {A : Type} (rotate_factors : A → String → A) (promax : A → A)
    (s : FactorResultsState A) (method : String) :
    FactorResultsState A × Option String :=
  let s1 := { s with rotation_method := some method }
  if method ∉ rotationMethods then
    (s1, some ("Unknown rotation method " ++ method))
  else if method ∈ orthomaxMethods then
    ({ s1 with loadings := rotate_factors s1.loadings_no_rot method }, none)
  else if method = "oblimin" then
    ({ s1 with loadings := rotate_factors s1.loadings_no_rot "quartimin" }, none)
  else
    ({ s1 with loadings := promax s1.loadings_no_rot }, none)

/-! ## Factor.fit_pa (factor.py, lines 46-135) -/

/-- Pearson correlation matrix `np.corrcoef(endog, rowvar=0)`: entry (i, j) is
the covariance of columns i and j divided by the product of their standard
deviations (the matching 1/(n-1) normalizations of numerator and denominator
cancel, so they are omitted on both sides). -/
noncomputable def corrcoef {nobs k : ℕ} (endog : Matrix (Fin nobs) (Fin k) ℝ) :
    Matrix (Fin k) (Fin k) ℝ :=
  let mean : Fin k → ℝ := fun j => (∑ t, endog t j) / nobs
  let cov : Fin k → Fin k → ℝ := fun i j =>
    ∑ t, (endog t i - mean i) * (endog t j - mean j)
  let d : Fin k → ℝ := fun i => Real.sqrt (cov i i)
  fun i j => cov i j / (d i * d j)

/-- A numpy object that can appear as `c[j]` in the diagonal-replacement
loop: a scalar, or a length-k row extracted from a 2-d array. -/
inductive NpItem (k : ℕ)
  | scalar (x : ℝ)
  | row (v : Fin k → ℝ)

/-- The initial communality estimate as created by factor.py lines 100-104:
with SMC a 1-d array of length k, without SMC the 2-d 1 × k array
`np.ones([1, len(R)])`. -/
inductive CommEst (k : ℕ)
  | oneD (v : Fin k → ℝ)
  | twoD (m : Fin 1 → Fin k → ℝ)

/-- numpy basic indexing `c[j]`: on a 1-d array it gives a scalar, on a 2-d
array the selected row; an out-of-bounds index raises IndexError. -/
def CommEst.getitem {k : ℕ} : CommEst k → ℕ → Except String (NpItem k)
  | .oneD v, j =>
    if h : j < k then .ok (.scalar (v ⟨j, h⟩))
    else .error ("IndexError: index " ++ toString j ++
      " is out of bounds for axis 0 with size " ++ toString k)
  | .twoD m, j =>
    if h : j < 1 then .ok (.row (m ⟨j, h⟩))
    else .error ("IndexError: index " ++ toString j ++
      " is out of bounds for axis 0 with size 1")

/-- numpy scalar-slot assignment `R[j, j] = item`: a scalar is stored as is;
an array is accepted only when it has exactly one element (numpy extracts
it), otherwise the assignment raises
`ValueError: setting an array element with a sequence.` -/
def NpItem.toScalar {k : ℕ} : NpItem k → Except String ℝ
  | .scalar x => .ok x
  | .row v =>
    if h : k = 1 then .ok (v (Fin.cast h.symm 0))
    else .error "ValueError: setting an array element with a sequence."

/-- The first execution of the diagonal-replacement loop
`for j in range(len(R)): R[j, j] = c[j]` (factor.py lines 111-112) — the
point where the array shape of the initial communality estimate matters.  It
returns the vector of values written to the diagonal, or the first exception
raised (the loop stops at an exception). -/
def writeDiag {k : ℕ} (c : CommEst k) : Except String (Fin k → ℝ) :=
  (List.finRange k).foldl
    (fun acc j => do
      let f ← acc
      let item ← c.getitem j.val
      let x ← item.toScalar
      pure (Function.update f j x))
    (pure fun _ => 0)

/-- Result bundle of `Factor.fit_pa`: the number of retained factors, the
loadings matrix (a k × nfac array, modelled as a total function that is zero
outside its `nfac` meaningful columns), the eigenvalues of the final reduced
correlation matrix (sorted descending), and the communalities. -/
structure PaOut (k : ℕ) where
  nfac : ℕ
  loadings : Fin k → ℕ → ℝ
  eigenvals : Fin k → ℝ
  communality : Fin k → ℝ

/-- One iteration of the principal-axis loop (factor.py lines 109-129):
replace the diagonal of R by the current communality estimate, eigendecompose
(the external kernel `eigh` returns eigenvalues in arbitrary order with
matching eigenvector columns), sort the eigenvalues descending and reorder
the eigenvector columns accordingly (`np.argsort` then `[::-1]`), retain
`n = min(n_pos, n_factor)` leading eigenpairs where `n_pos` counts strictly
positive eigenvalues, and form the loadings `A = V[:, :n] sqrt(diag(L[:n]))`
and the new communality (row sums of squares of A). -/
noncomputable def paStep {k : ℕ}
    (eigh : Matrix (Fin k) (Fin k) ℝ → (Fin k → ℝ) × Matrix (Fin k) (Fin k) ℝ)
    (R : Matrix (Fin k) (Fin k) ℝ) (n_factor : ℕ) (c : Fin k → ℝ) : PaOut k :=
  let M : Matrix (Fin k) (Fin k) ℝ := fun i j => if i = j then c j else R i j
  let L := (eigh M).1
  let V := (eigh M).2
  let σ := Tuple.sort L
  let Ls : Fin k → ℝ := fun i => L (σ i.rev)
  let Vs : Matrix (Fin k) (Fin k) ℝ := fun i j => V i (σ j.rev)
  let nPos : ℕ :=
    (@Finset.filter _ (fun i => 0 < Ls i)
      (fun _ => Classical.propDecidable _) Finset.univ).card
  let n := min nPos n_factor
  have hn : n ≤ k := le_trans (min_le_left _ _)
    (le_trans (Finset.card_filter_le _ _) (by simp))
  let A : Fin k → ℕ → ℝ := fun i j =>
    if h : j < n then
      Vs i ⟨j, lt_of_lt_of_le h hn⟩ * Real.sqrt (Ls ⟨j, lt_of_lt_of_le h hn⟩)
    else 0
  { nfac := n
    loadings := A
    eigenvals := Ls
    communality := fun i => ∑ j ∈ Finset.range n, A i j ^ 2 }

/-- The iteration loop of `fit_pa` (factor.py lines 108-131): up to `fuel`
iterations, stopping early when the Euclidean norm of the communality change
drops under `tolerance`.  `fit_pa` always calls this with `fuel ≥ 1`; the
`fuel = 0` equation is an unreachable filler. -/
noncomputable def paGo {k : ℕ}
    (eigh : Matrix (Fin k) (Fin k) ℝ → (Fin k → ℝ) × Matrix (Fin k) (Fin k) ℝ)
    (R : Matrix (Fin k) (Fin k) ℝ) (n_factor : ℕ) (tolerance : ℝ) :
    ℕ → (Fin k → ℝ) → PaOut k
  | 0, c => paStep eigh R n_factor c
  | 1, c => paStep eigh R n_factor c
  | f + 2, c =>
    let out := paStep eigh R n_factor c
    if Real.sqrt (∑ i, (c i - out.communality i) ^ 2) < tolerance then out
    else paGo eigh R n_factor tolerance (f + 1) out.communality

/-- Embedding of `Factor(endog, n_factor, method='pa')` construction followed
by `fit_pa(n_max_iter, tolerance, SMC)` (factor.py lines 46-59 and 70-135).
Validation errors reproduce the source messages (the `%f` interpolation of
the tolerance message is omitted, floats having no canonical print here).
`numpy.linalg.matrix_rank` and `numpy.linalg.inv` are modelled by Mathlib's
`Matrix.rank` and matrix inverse; the eigendecomposition `numpy.linalg.eigh`
is the external-kernel parameter `eigh`.  The initial communality estimate is
fed through `writeDiag`, which gives the first diagonal-replacement loop
numpy shape semantics — this is where `np.ones([1, k])` (SMC disabled)
differs from a 1-d vector. -/
noncomputable def fit_pa {nobs k : ℕ}
    (eigh : Matrix (Fin k) (Fin k) ℝ → (Fin k → ℝ) × Matrix (Fin k) (Fin k) ℝ)
    (endog : Matrix (Fin nobs) (Fin k) ℝ)
    (n_factor n_max_iter : ℕ) (tolerance : ℝ) (SMC : Bool) :
    Except String (PaOut k) :=
  if n_factor = 0 then
    .error ("n_factor must be larger than 0! " ++ toString n_factor ++ " < 0")
  else if k < n_factor then
    .error ("n_factor must be smaller or equal to the number of columns of endog! "
      ++ toString n_factor ++ " > " ++ toString k)
  else
    let R := corrcoef endog
    if R.rank < n_factor then
      .error ("n_factor must be smaller or equal to the rank of endog! "
        ++ toString n_factor ++ " > " ++ toString R.rank)
    else if n_max_iter = 0 then
      .error ("n_max_iter must be larger than 0! " ++ toString n_max_iter ++ " < 0")
    else if tolerance ≤ 0 ∨ 1 / 100 < tolerance then
      .error "tolerance must be larger than 0 and smaller than 0.01!"
    else
      let cEst : CommEst k :=
        if SMC then .oneD (fun j => 1 - (R⁻¹ j j)⁻¹) else .twoD fun _ _ => 1
      match writeDiag cEst with
      | .error e => .error e
      | .ok c0 => .ok (paGo eigh R n_factor tolerance n_max_iter c0)

/-! ## Concrete inputs for the factor-analysis claims -/

/-- A 3-observation, 2-variable data matrix with correlation matrix
`[[1, 1/2], [1/2, 1]]`; used to exercise the SMC-disabled path. -/
noncomputable def dataSmc : Matrix (Fin 3) (Fin 2) ℝ := !![1, 0; 0, 1; -1, -1]

/-- A 6-observation, 3-variable data matrix whose exact correlation matrix is
`[[1, 2/3, 2/3], [2/3, 1, -1/24], [2/3, -1/24, 1]]`; the principal-axis
iteration on it is a Heywood case: the communality of the first variable
exceeds 1 after two iterations. -/
noncomputable def dataCE : Matrix (Fin 6) (Fin 3) ℝ :=
  !![1, -3, 7; 1, 7, -3; 1, 4, 4; -1, -3, -3; -1, -3, -3; -1, -2, -2]

/-- The exact correlation matrix of `dataCE`. -/
noncomputable def RCE : Matrix (Fin 3) (Fin 3) ℝ :=
  !![1, 2/3, 2/3; 2/3, 1, -1/24; 2/3, -1/24, 1]

/-- The exact inverse of `RCE`. -/
noncomputable def RCEinv : Matrix (Fin 3) (Fin 3) ℝ :=
  !![69/5, -48/5, -48/5; -48/5, 192/25, 168/25; -48/5, 168/25, 192/25]

/-- The structured symmetric matrices arising in the iteration on `dataCE`:
off-diagonal pattern of `RCE`, diagonal `(d1, d2, d2)`. -/
noncomputable def ceMatrix (d1 d2 : ℝ) : Matrix (Fin 3) (Fin 3) ℝ :=
  !![d1, 2/3, 2/3; 2/3, d2, -1/24; 2/3, -1/24, d2]

/-- Discriminant of the 2 × 2 block of `ceMatrix d1 d2` on the subspace
spanned by `e0` and `(e1 + e2)/sqrt 2`. -/
noncomputable def ceDisc (d1 d2 : ℝ) : ℝ := (d1 - d2 + 1 / 24) ^ 2 + 32 / 9

/-- Largest eigenvalue of `ceMatrix d1 d2`. -/
noncomputable def ceMuP (d1 d2 : ℝ) : ℝ :=
  (d1 + d2 - 1 / 24 + Real.sqrt (ceDisc d1 d2)) / 2

/-- Smallest block eigenvalue of `ceMatrix d1 d2`. -/
noncomputable def ceMuM (d1 d2 : ℝ) : ℝ :=
  (d1 + d2 - 1 / 24 - Real.sqrt (ceDisc d1 d2)) / 2

/-- Eigenvalue of `ceMatrix d1 d2` on the antisymmetric vector
`(0, 1, -1)/sqrt 2`. -/
noncomputable def ceMu0 (d2 : ℝ) : ℝ := d2 + 1 / 24

/-- Eigenvalues of `ceMatrix d1 d2` in ascending order (as `numpy.linalg.eigh`
returns them). -/
noncomputable def ceL (d1 d2 : ℝ) : Fin 3 → ℝ :=
  ![ceMuM d1 d2, ceMu0 d2, ceMuP d1 d2]

/-- Normalization of the eigenvector for `ceMuP`. -/
noncomputable def ceGP (d1 d2 : ℝ) : ℝ :=
  Real.sqrt (8 / 9 + (ceMuP d1 d2 - d1) ^ 2)

/-- Normalization of the eigenvector for `ceMuM`. -/
noncomputable def ceGM (d1 d2 : ℝ) : ℝ :=
  Real.sqrt (8 / 9 + (ceMuM d1 d2 - d1) ^ 2)

/-- Orthonormal eigenvector columns of `ceMatrix d1 d2`, matching `ceL`. -/
noncomputable def ceV (d1 d2 : ℝ) : Matrix (Fin 3) (Fin 3) ℝ :=
  !![2 / 3 * Real.sqrt 2 / ceGM d1 d2, 0, 2 / 3 * Real.sqrt 2 / ceGP d1 d2;
     (ceMuM d1 d2 - d1) / (Real.sqrt 2 * ceGM d1 d2), 1 / Real.sqrt 2,
       (ceMuP d1 d2 - d1) / (Real.sqrt 2 * ceGP d1 d2);
     (ceMuM d1 d2 - d1) / (Real.sqrt 2 * ceGM d1 d2), -(1 / Real.sqrt 2),
       (ceMuP d1 d2 - d1) / (Real.sqrt 2 * ceGP d1 d2)]

/-- The eigendecomposition kernel used for the counterexample run: it reads
the two distinct diagonal entries of the structured working matrix and
returns the closed-form eigendecomposition of the structured matrix with that
diagonal.  Its validity (orthonormal columns satisfying the eigenvalue
equation) on every matrix actually passed to it during the run is asserted
and proved alongside the counterexample. -/
noncomputable def eighCE (M : Matrix (Fin 3) (Fin 3) ℝ) :
    (Fin 3 → ℝ) × Matrix (Fin 3) (Fin 3) ℝ :=
  (ceL (M 0 0) (M 1 1), ceV (M 0 0) (M 1 1))

/-- First communality after one 1-factor step on `ceMatrix d1 d2`. -/
noncomputable def ceC1 (d1 d2 : ℝ) : ℝ :=
  8 / 9 * ceMuP d1 d2 / (8 / 9 + (ceMuP d1 d2 - d1) ^ 2)

/-- Second (and third) communality after one 1-factor step on
`ceMatrix d1 d2`. -/
noncomputable def ceC2 (d1 d2 : ℝ) : ℝ :=
  ceMuP d1 d2 * (ceMuP d1 d2 - d1) ^ 2 / (2 * (8 / 9 + (ceMuP d1 d2 - d1) ^ 2))

/-- Validity of an `eigh` output on a matrix: orthonormal eigenvector columns
(`V' V = 1`) carrying the eigenvalues (`M V = V diag(L)`), which for a square
`V` forces `M = V diag(L) V'`. -/
def IsSymmEigh (M : Matrix (Fin 3) (Fin 3) ℝ)
    (LV : (Fin 3 → ℝ) × Matrix (Fin 3) (Fin 3) ℝ) : Prop :=
  LV.2.transpose * LV.2 = 1 ∧ M * LV.2 = LV.2 * Matrix.diagonal LV.1

/-- The communality of the first variable returned by the counterexample run
(two 1-factor iterations starting from the squared multiple correlations). -/
noncomputable def ceFinalComm : ℝ :=
  ceC1 (ceC1 (64 / 69) (167 / 192)) (ceC2 (64 / 69) (167 / 192))

/-- The counterexample run itself: `Factor(dataCE, n_factor=1).fit_pa(
n_max_iter=2, tolerance=1e-6, SMC=True)` with the structured
eigendecomposition kernel. -/
noncomputable def ceFit : Except String (PaOut 3) :=
  fit_pa eighCE dataCE 1 2 (1 / 1000000) true

/-- The exact correlation matrix of `dataSmc`. -/
noncomputable def RSmc : Matrix (Fin 2) (Fin 2) ℝ := !![1, 1/2; 1/2, 1]

/-- The exact inverse of `RSmc`. -/
noncomputable def RSmcInv : Matrix (Fin 2) (Fin 2) ℝ := !![4/3, -2/3; -2/3, 4/3]

/-! ## Theorems -/

/-- C1: for every independent-variable matrix X (n rows, q columns) and
dependent-variable matrix Y (n rows, p columns) with equal row counts,
`fit_manova` returns exactly the tuple `(params, df_resid, inv_cov, sscpr)`
with `params = pinv(X)·Y`, `inv_cov = (X'X)⁻¹`,
`sscpr = Y'Y − (X·params)'(X·params)` and `df_resid = n − q`, as a pure
function of (X, Y). -/
theorem fit_manova_is_spec
    (pinv : {a b : ℕ} → Matrix (Fin a) (Fin b) ℚ → Matrix (Fin b) (Fin a) ℚ)
    {n q p : ℕ} (x : Matrix (Fin n) (Fin q) ℚ) (y : Matrix (Fin n) (Fin p) ℚ) :
    fit_manova pinv x y =
      .ok ⟨paramsSpec pinv x y, dfResidSpec n q, invCovSpec x,
        sscprSpec pinv x y⟩ := by
  rw [fit_manova, dif_pos rfl]
  rfl

/-- C2: for every eigenvalue sequence λᵢ and integer ranks p, q and residual
degrees of freedom v given to `multivariate_stats`, the Wilks lambda Value
equals Π(1 − λᵢ), and its F approximation is computed with
r = v − (p − q + 1)/2, u = (pq − 2)/4, t = sqrt((p²q² − 4)/(p² + q² − 5))
when p² + q² − 5 > 0 and t = 1 otherwise, df1 = pq, df2 = rt − 2u,
F = (1 − Λ^(1/t))/Λ^(1/t) · df2/df1, and p-value the F survival function at
(F, df1, df2). -/
theorem multivariate_stats_wilks_spec (fsf : ℝ → ℝ → ℝ → ℝ)
    (eigenvals : List ℝ) (p q : ℕ) (v : ℤ) :
    (multivariate_stats fsf eigenvals p q v).wilks =
      ⟨wilksValueSpec eigenvals,
       wilksFSpec eigenvals p q v,
       wilksDf1Spec p q,
       wilksDf2Spec p q v,
       fsf (wilksFSpec eigenvals p q v) (wilksDf1Spec p q)
         (wilksDf2Spec p q v)⟩ := rfl

/-- C3 (code bug): with no design info and q = 2 exog columns, the
default-hypothesis construction of `MANOVA.test` crashes with an IndexError
instead of producing one single-1 contrast per column: `L[i] = 1` on the 1 × q
zero matrix indexes rows, so i = 0 sets the whole first row to ones (which
already differs from the claimed unit contrast) and i = 1 is out of bounds. -/
theorem default_hypotheses_crash :
    defaultHypotheses 2 =
      .error "IndexError: index 1 is out of bounds for axis 0 with size 1" ∧
    defaultHypothesesAux 2 [0] =
      .ok [("x0", fun _ _ => (1 : ℚ))] ∧
    (fun _ _ => (1 : ℚ)) ≠ unitContrast 2 ⟨0, by decide⟩ := by
  refine ⟨rfl, rfl, ?_⟩
  intro h
  have h1 := congrFun (congrFun h 0) ⟨1, by decide⟩
  simp [unitContrast] at h1

/-- C4 (code bug): for a transform matrix M with 2 rows passed against a model
with 3 endog columns and 2 exog columns, the validation error message
interpolates exog's column count instead of endog's, producing "2 != 2" where
the claim requires "2 != 3". -/
theorem transform_matrix_message_bug :
    checkHypothesisShapes 2 3 [1, 2] (some [2, 1]) =
      .error "Transform matrix M should have the same number of rows as the number of columns of endog! 2 != 2" ∧
    ("Transform matrix M should have the same number of rows as the number of columns of endog! 2 != 2"
      ≠ transformErrorMsgSpec 2 3) := by
  exact ⟨rfl, by decide⟩

/-- C6: in the canonical-correlation scaling loops, the columns of V are
divided by their singular values only up to (and not including) the first
singular value at or under ε = 1e-8; from that index onward every remaining
column is passed through unscaled, even if a later singular value exceeds ε. -/
theorem cancorr_sv_scaling_cutoff (s : List ℚ) (cols : List (List ℚ)) (i : ℕ)
    (his : i < s.length) (hic : i < cols.length) :
    ((∀ j, j ≤ i → svTolerance < s.getD j 0) →
      (scaleColsBySV s cols).getD i [] =
        (cols.getD i []).map fun x => x / s.getD i 0) ∧
    ((∃ j, j ≤ i ∧ s.getD j 0 ≤ svTolerance) →
      (scaleColsBySV s cols).getD i [] = cols.getD i []) := by
  induction s generalizing cols i with
  | nil => exact absurd his (by simp)
  | cons sv ss ih =>
    cases cols with
    | nil => exact absurd hic (by simp)
    | cons col cs =>
      constructor
      · intro hall
        have h0 : svTolerance < sv := by simpa using hall 0 (Nat.zero_le _)
        rw [scaleColsBySV, if_pos h0]
        cases i with
        | zero => simp
        | succ i' =>
          simp only [List.getD_cons_succ]
          exact (ih cs i' (by simpa using his) (by simpa using hic)).1
            fun j hj => by simpa using hall (j + 1) (by omega)
      · rintro ⟨j, hj, hle⟩
        cases j with
        | zero =>
          have h0 : ¬ svTolerance < sv := by simpa using not_lt.mpr hle
          rw [scaleColsBySV, if_neg h0]
        | succ j' =>
          by_cases h0 : svTolerance < sv
          · rw [scaleColsBySV, if_pos h0]
            cases i with
            | zero => omega
            | succ i' =>
              simp only [List.getD_cons_succ]
              exact (ih cs i' (by simpa using his) (by simpa using hic)).2
                ⟨j', by omega, by simpa using hle⟩
          · rw [scaleColsBySV, if_neg h0]

/-- Witness for C6 at a concrete input: singular values (2, 1e-9, 3) — the
third exceeds ε but follows a value under ε, so columns 2 and 3 pass through
unscaled while column 1 is divided by 2. -/
theorem cancorr_sv_scaling_cutoff_witness :
    (2 : ℕ) < ([2, 1/1000000000, 3] : List ℚ).length ∧
    (2 : ℕ) < ([[4], [5], [6]] : List (List ℚ)).length ∧
    (((∀ j, j ≤ 2 → svTolerance < ([2, 1/1000000000, 3] : List ℚ).getD j 0) →
      (scaleColsBySV [2, 1/1000000000, 3] [[4], [5], [6]]).getD 2 [] =
        (([[4], [5], [6]] : List (List ℚ)).getD 2 []).map
          fun x => x / ([2, 1/1000000000, 3] : List ℚ).getD 2 0) ∧
    ((∃ j, j ≤ 2 ∧ ([2, 1/1000000000, 3] : List ℚ).getD j 0 ≤ svTolerance) →
      (scaleColsBySV [2, 1/1000000000, 3] [[4], [5], [6]]).getD 2 [] =
        ([[4], [5], [6]] : List (List ℚ)).getD 2 [])) :=
  ⟨by decide, by decide,
    cancorr_sv_scaling_cutoff [2, 1/1000000000, 3] [[4], [5], [6]] 2
      (by decide) (by decide)⟩

/-- C7: every canonical correlation coefficient produced by the clipping step
lies in [0, 1], and the clipped sequence is descending whenever the raw
singular-value sequence coming out of the SVD kernel is descending. -/
theorem cancorr_clip_range_sorted (s : List ℚ)
    (hs : s.Sorted (fun a b => b ≤ a)) :
    (∀ x ∈ cancorrClip s, 0 ≤ x ∧ x ≤ 1) ∧
    (cancorrClip s).Sorted (fun a b => b ≤ a) := by
  constructor
  · intro x hx
    obtain ⟨y, _, rfl⟩ := List.mem_map.mp hx
    exact ⟨le_max_left _ _, max_le zero_le_one (min_le_right _ _)⟩
  · exact List.Pairwise.map _
      (fun a b hba => max_le_max le_rfl (min_le_min hba le_rfl)) hs

/-- Witness for C7 at a concrete input with an out-of-range head and tail. -/
theorem cancorr_clip_range_sorted_witness :
    ([2, 1, -1] : List ℚ).Sorted (fun a b => b ≤ a) ∧
    ((∀ x ∈ cancorrClip [2, 1, -1], 0 ≤ x ∧ x ≤ 1) ∧
      (cancorrClip [2, 1, -1]).Sorted (fun a b => b ≤ a)) :=
  ⟨by decide, cancorr_clip_range_sorted [2, 1, -1] (by decide)⟩

/-- Helper: every branch of `rotate` leaves `loadings_no_rot` unchanged. -/
theorem rotate_preserves_no_rot {A : Type} (rf : A → String → A) (pm : A → A)
    (s : FactorResultsState A) (m : String) :
    (rotate rf pm s m).1.loadings_no_rot = s.loadings_no_rot := by
  unfold rotate
  split_ifs <;> rfl

/-- Helper: for a valid method, the rotated loadings depend only on the
pre-rotation loadings. -/
theorem rotate_loadings_congr {A : Type} (rf : A → String → A) (pm : A → A)
    (s s' : FactorResultsState A) (m : String) (hm : m ∈ rotationMethods)
    (h : s.loadings_no_rot = s'.loadings_no_rot) :
    (rotate rf pm s m).1.loadings = (rotate rf pm s' m).1.loadings := by
  have hv : ¬ m ∉ rotationMethods := fun hc => hc hm
  unfold rotate
  simp only [if_neg hv]
  split_ifs <;> simp [h]

/-- Helper: a valid method name raises no error. -/
theorem rotate_valid_no_error {A : Type} (rf : A → String → A) (pm : A → A)
    (s : FactorResultsState A) (m : String) (hm : m ∈ rotationMethods) :
    (rotate rf pm s m).2 = none := by
  have hv : ¬ m ∉ rotationMethods := fun hc => hc hm
  unfold rotate
  simp only [if_neg hv]
  split_ifs <;> rfl

/-- C9: for every factor-results state and valid rotation method names m1,
m2, both rotate calls succeed, calling rotate(m1) then rotate(m2) leaves the
current loadings equal to what a single call rotate(m2) would produce
(rotation is wholesale replacement from the pre-rotation loadings, never
composition), and the pre-rotation loadings are unchanged by any rotate
call. -/
theorem rotate_replacement_law {A : Type} (rf : A → String → A) (pm : A → A)
    (s : FactorResultsState A) (m1 m2 : String)
    (h1 : m1 ∈ rotationMethods) (h2 : m2 ∈ rotationMethods) :
    (rotate rf pm s m1).2 = none ∧
    (rotate rf pm (rotate rf pm s m1).1 m2).1.loadings =
      (rotate rf pm s m2).1.loadings ∧
    (∀ m : String, (rotate rf pm s m).1.loadings_no_rot = s.loadings_no_rot) :=
  ⟨rotate_valid_no_error rf pm s m1 h1,
   rotate_loadings_congr rf pm _ s m2 h2 (rotate_preserves_no_rot rf pm s m1),
   fun m => rotate_preserves_no_rot rf pm s m⟩

/-- Witness for C9 at a concrete state and concrete rotation kernels. -/
theorem rotate_replacement_law_witness :
    ("varimax" ∈ rotationMethods) ∧ ("promax" ∈ rotationMethods) ∧
    ((rotate (fun (x : ℚ) _ => x + 1) (fun x => x * 2)
        (⟨3, 4, none⟩ : FactorResultsState ℚ) "varimax").2 = none ∧
    (rotate (fun (x : ℚ) _ => x + 1) (fun x => x * 2)
        (rotate (fun x _ => x + 1) (fun x => x * 2) ⟨3, 4, none⟩ "varimax").1
        "promax").1.loadings =
      (rotate (fun x _ => x + 1) (fun x => x * 2)
        (⟨3, 4, none⟩ : FactorResultsState ℚ) "promax").1.loadings ∧
    (∀ m : String,
      (rotate (fun (x : ℚ) _ => x + 1) (fun x => x * 2)
        (⟨3, 4, none⟩ : FactorResultsState ℚ) m).1.loadings_no_rot = 3)) :=
  ⟨by decide, by decide,
    rotate_replacement_law (fun x _ => x + 1) (fun x => x * 2) ⟨3, 4, none⟩
      "varimax" "promax" (by decide) (by decide)⟩

/-- C10: for every state and method name outside the enumerated rotation set,
rotate raises a validation error naming the offending string, and the state
is not left unchanged: its rotation_method field is set to the unknown method
name before the error is raised (the failed call is not atomic). -/
theorem rotate_unknown_method {A : Type} (rf : A → String → A) (pm : A → A)
    (s : FactorResultsState A) (m : String) (hm : m ∉ rotationMethods) :
    (rotate rf pm s m).2 = some ("Unknown rotation method " ++ m) ∧
    (rotate rf pm s m).1.rotation_method = some m := by
  unfold rotate
  rw [if_pos hm]
  exact ⟨rfl, rfl⟩

/-- Witness for C10 at a concrete unknown method name. -/
theorem rotate_unknown_method_witness :
    ("foo" ∉ rotationMethods) ∧
    ((rotate (fun (x : ℚ) _ => x + 1) (fun x => x * 2) ⟨3, 4, none⟩ "foo").2 =
        some ("Unknown rotation method " ++ "foo") ∧
      (rotate (fun (x : ℚ) _ => x + 1) (fun x => x * 2)
        ⟨3, 4, none⟩ "foo").1.rotation_method = some "foo") :=
  ⟨by decide,
    rotate_unknown_method (fun x _ => x + 1) (fun x => x * 2) ⟨3, 4, none⟩
      "foo" (by decide)⟩

/-- Helper: folding the diagonal writes of a 1-d communality vector updates
every visited index with the vector's value. -/
theorem writeDiag_oneD_fold {k : ℕ} (v : Fin k → ℝ) (l : List (Fin k)) :
    ∀ f : Fin k → ℝ,
      l.foldl
        (fun acc j => do
          let g ← acc
          let item ← (CommEst.oneD v).getitem j.val
          let x ← item.toScalar
          pure (Function.update g j x))
        (pure f) =
      .ok (l.foldl (fun g j => Function.update g j (v j)) f) := by
  induction l with
  | nil => intro f; rfl
  | cons a as ih =>
    intro f
    have hstep :
        (do
          let g ← (pure f : Except String (Fin k → ℝ))
          let item ← (CommEst.oneD v).getitem a.val
          let x ← item.toScalar
          pure (Function.update g a x)) =
        (pure (Function.update f a (v a)) : Except String (Fin k → ℝ)) := by
      show (do
        let item ← (CommEst.oneD v).getitem a.val
        let x ← item.toScalar
        pure (Function.update f a x)) =
          (pure (Function.update f a (v a)) : Except String (Fin k → ℝ))
      rw [CommEst.getitem, dif_pos a.isLt]
      rfl
    rw [List.foldl_cons, hstep, ih, List.foldl_cons]

/-- Helper: updating along a list with values drawn from `v` yields `v` at
every member of the list. -/
theorem foldl_update_apply {k : ℕ} (v : Fin k → ℝ) (l : List (Fin k))
    (f : Fin k → ℝ) (j : Fin k) :
    l.foldl (fun g i => Function.update g i (v i)) f j =
      if j ∈ l then v j else f j := by
  induction l generalizing f with
  | nil => simp
  | cons a as ih =>
    rw [List.foldl_cons, ih]
    by_cases hj : j ∈ as
    · simp [hj]
    · by_cases hja : j = a
      · subst hja; simp [hj, Function.update_same]
      · simp [hj, hja, Function.update_noteq hja]

/-- Helper: `writeDiag` on a 1-d communality vector succeeds and writes back
exactly that vector. -/
theorem writeDiag_oneD {k : ℕ} (v : Fin k → ℝ) :
    writeDiag (CommEst.oneD v) = .ok v := by
  rw [writeDiag, writeDiag_oneD_fold]
  refine congrArg _ (funext fun j => ?_)
  rw [foldl_update_apply, if_pos (List.mem_finRange j)]

/-- Helper: an errored accumulator is preserved by the diagonal-write fold. -/
theorem writeDiag_fold_error {k : ℕ} (c : CommEst k) (e : String)
    (l : List (Fin k)) :
    l.foldl
      (fun acc j => do
        let g ← acc
        let item ← c.getitem j.val
        let x ← item.toScalar
        pure (Function.update g j x))
      (.error e) = .error e := by
  induction l with
  | nil => rfl
  | cons a as ih => rw [List.foldl_cons]; exact ih

/-- Helper: `writeDiag` on the 2-d array `np.ones([1, k])` with k ≥ 2 raises
numpy's ValueError at the very first diagonal assignment (`R[0, 0] = c[0]`
tries to store a length-k row into a scalar slot). -/
theorem writeDiag_twoD {k : ℕ} (hk : 2 ≤ k) (m : Fin 1 → Fin k → ℝ) :
    writeDiag (CommEst.twoD m) =
      .error "ValueError: setting an array element with a sequence." := by
  obtain ⟨k', rfl⟩ : ∃ k', k = k' + 1 := ⟨k - 1, by omega⟩
  rw [writeDiag, List.finRange_succ_eq_map, List.foldl_cons]
  have hstep :
      (do
        let g ← (pure fun _ => (0 : ℝ) : Except String (Fin (k' + 1) → ℝ))
        let item ← (CommEst.twoD m).getitem (0 : Fin (k' + 1)).val
        let x ← item.toScalar
        pure (Function.update g 0 x)) =
      (.error "ValueError: setting an array element with a sequence." :
        Except String (Fin (k' + 1) → ℝ)) := by
    show (do
      let item ← (CommEst.twoD m).getitem 0
      let x ← item.toScalar
      pure (Function.update (fun _ => (0 : ℝ)) 0 x)) =
        (.error "ValueError: setting an array element with a sequence." :
          Except String (Fin (k' + 1) → ℝ))
    rw [CommEst.getitem, dif_pos (by omega : (0 : ℕ) < 1)]
    show (do
      let x ← (NpItem.row (m ⟨0, by omega⟩) : NpItem (k' + 1)).toScalar
      pure (Function.update (fun _ => (0 : ℝ)) 0 x)) = _
    rw [NpItem.toScalar, dif_neg (by omega : ¬ k' + 1 = 1)]
    rfl
  rw [hstep, writeDiag_fold_error]

/-- Helper: the eigenvalue sequence produced by one principal-axis step is
sorted descending (argsort ascending, then reversed). -/
theorem paStep_eigenvals_antitone {k : ℕ}
    (eigh : Matrix (Fin k) (Fin k) ℝ → (Fin k → ℝ) × Matrix (Fin k) (Fin k) ℝ)
    (R : Matrix (Fin k) (Fin k) ℝ) (n_factor : ℕ) (c : Fin k → ℝ) :
    Antitone (paStep eigh R n_factor c).eigenvals := by
  intro i j hij
  exact Tuple.monotone_sort _ (Fin.rev_le_rev.mpr hij)

/-- Helper: the communalities produced by one principal-axis step are sums of
squares, hence nonnegative. -/
theorem paStep_communality_nonneg {k : ℕ}
    (eigh : Matrix (Fin k) (Fin k) ℝ → (Fin k → ℝ) × Matrix (Fin k) (Fin k) ℝ)
    (R : Matrix (Fin k) (Fin k) ℝ) (n_factor : ℕ) (c : Fin k → ℝ) (i : Fin k) :
    0 ≤ (paStep eigh R n_factor c).communality i := by
  simp only [paStep]
  exact Finset.sum_nonneg fun _ _ => sq_nonneg _

/-- Helper: the iteration loop always returns the output of some single
step. -/
theorem paGo_is_step {k : ℕ}
    (eigh : Matrix (Fin k) (Fin k) ℝ → (Fin k → ℝ) × Matrix (Fin k) (Fin k) ℝ)
    (R : Matrix (Fin k) (Fin k) ℝ) (n_factor : ℕ) (tolerance : ℝ) :
    ∀ fuel c, ∃ c', paGo eigh R n_factor tolerance fuel c =
      paStep eigh R n_factor c' := by
  intro fuel
  induction fuel using Nat.strong_induction_on with
  | _ fuel ih =>
    intro c
    match fuel with
    | 0 => exact ⟨c, rfl⟩
    | 1 => exact ⟨c, rfl⟩
    | f + 2 =>
      rw [paGo]
      split
      · exact ⟨c, rfl⟩
      · exact ih (f + 1) (by omega) _

/-- Helper: exact evaluation of the correlation matrix of `dataSmc`. -/
theorem corrcoef_dataSmc : corrcoef dataSmc = RSmc := by
  have h2 : Real.sqrt 2 * Real.sqrt 2 = 2 := Real.mul_self_sqrt (by norm_num)
  funext i j
  fin_cases i <;> fin_cases j <;>
    · simp only [corrcoef, dataSmc, RSmc, Fin.sum_univ_three, Matrix.cons_val',
        Matrix.cons_val_zero, Matrix.cons_val_one, Matrix.head_cons,
        Matrix.head_fin_const, Matrix.empty_val', Matrix.cons_val_fin_one]
      norm_num

/-- Helper: exact evaluation of the correlation matrix of `dataCE`. -/
theorem corrcoef_dataCE : corrcoef dataCE = RCE := by
  have h6 : (0:ℝ) ≤ 6 := by norm_num
  have hm : Real.sqrt 6 * Real.sqrt 96 = 24 := by
    rw [← Real.sqrt_mul h6]
    rw [show (6:ℝ) * 96 = 24^2 by norm_num, Real.sqrt_sq (by norm_num)]
  have hm6 : Real.sqrt 6 * Real.sqrt 6 = 6 := Real.mul_self_sqrt h6
  have hm96 : Real.sqrt 96 * Real.sqrt 96 = 96 :=
    Real.mul_self_sqrt (by norm_num)
  have hm' : Real.sqrt 96 * Real.sqrt 6 = 24 := by rw [mul_comm]; exact hm
  funext i j
  fin_cases i <;> fin_cases j <;>
    · simp only [corrcoef, dataCE, RCE, Fin.sum_univ_succ, Finset.sum_empty,
        Fin.sum_univ_zero, Matrix.cons_val', Matrix.cons_val_zero,
        Matrix.cons_val_one, Matrix.cons_val_succ, Matrix.head_cons,
        Matrix.head_cons, Matrix.tail_cons, Matrix.cons_val_two,
        Function.comp_apply, Matrix.empty_val', Matrix.cons_val_fin_one,
        Matrix.of_apply]
      norm_num [hm, hm', hm6, hm96]

/-- Helper: `RSmcInv` is a right inverse of `RSmc`. -/
theorem RSmc_mul_inv : RSmc * RSmcInv = 1 := by
  funext i j
  fin_cases i <;> fin_cases j <;>
    · simp only [Matrix.mul_apply, Fin.sum_univ_two, RSmc, RSmcInv,
        Matrix.one_apply, Matrix.cons_val', Matrix.cons_val_zero,
        Matrix.cons_val_one, Matrix.cons_val_succ, Matrix.head_cons,
        Matrix.head_cons, Matrix.tail_cons, Matrix.cons_val_two,
        Function.comp_apply, Matrix.empty_val', Matrix.cons_val_fin_one,
        Matrix.of_apply]
      norm_num [Fin.ext_iff]

/-- Helper: the rank of `RSmc` is 2. -/
theorem RSmc_rank : RSmc.rank = 2 := by
  have : Invertible RSmc := Matrix.invertibleOfRightInverse _ _ RSmc_mul_inv
  rw [Matrix.rank_of_isUnit RSmc (isUnit_of_invertible RSmc)]
  simp

/-- Helper: `RCEinv` is a right inverse of `RCE`. -/
theorem RCE_mul_inv : RCE * RCEinv = 1 := by
  funext i j
  fin_cases i <;> fin_cases j <;>
    · simp only [Matrix.mul_apply, Fin.sum_univ_three, RCE, RCEinv,
        Matrix.one_apply, Matrix.cons_val', Matrix.cons_val_zero,
        Matrix.cons_val_one, Matrix.cons_val_succ, Matrix.head_cons,
        Matrix.head_cons, Matrix.tail_cons, Matrix.cons_val_two,
        Function.comp_apply, Matrix.empty_val', Matrix.cons_val_fin_one,
        Matrix.of_apply]
      norm_num [Fin.ext_iff]

/-- Helper: the Mathlib inverse of `RCE` is `RCEinv`. -/
theorem RCE_inv_eq : RCE⁻¹ = RCEinv := Matrix.inv_eq_right_inv RCE_mul_inv

/-- Helper: the rank of `RCE` is 3. -/
theorem RCE_rank : RCE.rank = 3 := by
  have : Invertible RCE := Matrix.invertibleOfRightInverse _ _ RCE_mul_inv
  rw [Matrix.rank_of_isUnit RCE (isUnit_of_invertible RCE)]
  simp

/-- C5 (code bug): with SMC disabled and k = 2 variables, `fit_pa` does not
initialize the communality estimate to the all-ones vector and proceed; it
creates the 2-d array `np.ones([1, k])`, and the first diagonal assignment
`R[0, 0] = c[0]` then raises numpy's ValueError because `c[0]` is a length-2
row, for every eigendecomposition kernel. -/
theorem fit_pa_smc_disabled_crash
    (eigh : Matrix (Fin 2) (Fin 2) ℝ → (Fin 2 → ℝ) × Matrix (Fin 2) (Fin 2) ℝ) :
    fit_pa eigh dataSmc 1 1 (1/1000) false =
      .error "ValueError: setting an array element with a sequence." := by
  simp only [fit_pa, corrcoef_dataSmc, RSmc_rank]
  norm_num
  rw [writeDiag_twoD (by norm_num)]

/-- Helper: the working matrix built by `paStep` from diagonal `(d1, d2, d2)`
and the off-diagonal entries of `RCE` is the structured matrix. -/
theorem paM_eq (d1 d2 : ℝ) :
    (fun i j => if i = j then (![d1, d2, d2] : Fin 3 → ℝ) j else RCE i j) =
      ceMatrix d1 d2 := by
  funext i j
  fin_cases i <;> fin_cases j <;>
    simp [RCE, ceMatrix, Fin.ext_iff, Matrix.cons_val_zero, Matrix.cons_val_one,
      Matrix.head_cons, Matrix.cons_val_two, Matrix.tail_cons]

/-- Helper: the structured kernel returns the closed-form eigendecomposition
on every structured matrix. -/
theorem eighCE_ceMatrix (d1 d2 : ℝ) :
    eighCE (ceMatrix d1 d2) = (ceL d1 d2, ceV d1 d2) := by
  have h00 : ceMatrix d1 d2 0 0 = d1 := by simp [ceMatrix]
  have h11 : ceMatrix d1 d2 1 1 = d2 := by simp [ceMatrix]
  rw [eighCE, h00, h11]

/-- Helper: when the closed-form eigenvalues are in ascending order, the
argsort permutation is the identity. -/
theorem ceL_sort (d1 d2 : ℝ) (hm0 : ceMuM d1 d2 ≤ ceMu0 d2)
    (h0p : ceMu0 d2 ≤ ceMuP d1 d2) :
    Tuple.sort (ceL d1 d2) = Equiv.refl (Fin 3) := by
  refine Tuple.sort_eq_refl_iff_monotone.mpr ?_
  refine Fin.monotone_iff_le_succ.mpr ?_
  intro i
  fin_cases i <;> simpa [ceL] using (by assumption)

/-- Helper: summing over a one-element index type. -/
theorem sum_fin_eq_one {n : ℕ} (h : n = 1) (f : Fin n → ℝ) :
    ∑ j, f j = f ⟨0, by omega⟩ := by
  subst h
  exact Fin.sum_univ_one f

/-- Helper: closed-form evaluation of one principal-axis step on a structured
matrix with the counterexample kernel, retaining one factor, when the three
closed-form eigenvalues satisfy μm < 0 < μ0 < μp. -/
theorem paStep_ce (d1 d2 : ℝ)
    (hmneg : ceMuM d1 d2 < 0) (h0pos : 0 < ceMu0 d2)
    (h0p : ceMu0 d2 < ceMuP d1 d2) :
    (paStep eighCE RCE 1 ![d1, d2, d2]).eigenvals =
        ![ceMuP d1 d2, ceMu0 d2, ceMuM d1 d2] ∧
    (paStep eighCE RCE 1 ![d1, d2, d2]).communality =
        ![ceC1 d1 d2, ceC2 d1 d2, ceC2 d1 d2] := by
  have hppos : 0 < ceMuP d1 d2 := h0pos.trans h0p
  have hs2 : Real.sqrt 2 ^ 2 = 2 := Real.sq_sqrt (by norm_num)
  have hgp2 : ceGP d1 d2 ^ 2 = 8/9 + (ceMuP d1 d2 - d1)^2 :=
    Real.sq_sqrt (by positivity)
  have hL0 : ceL d1 d2 (Fin.rev 0) = ceMuP d1 d2 := by
    rw [show (Fin.rev 0 : Fin 3) = 2 by decide]
    simp [ceL, Matrix.cons_val_two, Matrix.tail_cons, Matrix.head_cons]
  have hL1 : ceL d1 d2 (Fin.rev 1) = ceMu0 d2 := by
    rw [show (Fin.rev 1 : Fin 3) = 1 by decide]
    simp [ceL]
  have hL2 : ceL d1 d2 (Fin.rev 2) = ceMuM d1 d2 := by
    rw [show (Fin.rev 2 : Fin 3) = 0 by decide]
    simp [ceL]
  have hcard : ∀ inst : DecidablePred (fun i : Fin 3 => 0 < ceL d1 d2 i.rev),
      (@Finset.filter (Fin 3) (fun i => 0 < ceL d1 d2 i.rev) inst
        Finset.univ).card = 2 := by
    intro inst
    have huniv : (Finset.univ : Finset (Fin 3)) = {0, 1, 2} := by decide
    rw [huniv, show ({0, 1, 2} : Finset (Fin 3)) =
      insert 0 (insert 1 {2}) from rfl]
    rw [Finset.filter_insert, Finset.filter_insert, Finset.filter_singleton]
    rw [if_pos (show 0 < ceL d1 d2 (Fin.rev 0) by rw [hL0]; exact hppos),
      if_pos (show 0 < ceL d1 d2 (Fin.rev 1) by rw [hL1]; exact h0pos),
      if_neg (show ¬ 0 < ceL d1 d2 (Fin.rev 2) by
        rw [hL2]; exact not_lt.mpr hmneg.le)]
    rfl
  simp only [paStep, paM_eq, eighCE_ceMatrix,
    ceL_sort d1 d2 (by linarith) (by linarith), Equiv.refl_apply,
    hcard]
  constructor
  · funext i
    fin_cases i
    · simpa using hL0
    · simpa using hL1
    · simpa using hL2
  · funext i
    nth_rewrite 1 [show min 2 1 = 1 from rfl]
    rw [Finset.sum_range_one]
    rw [dif_pos (show (0 : ℕ) < min 2 1 by norm_num)]
    have hL0e : ceL d1 d2 (Fin.rev (⟨0, by omega⟩ : Fin 3)) = ceMuP d1 d2 := hL0
    rw [mul_pow, Real.sq_sqrt (by rw [hL0e]; exact hppos.le)]
    rw [hL0e]
    fin_cases i
    · show (ceV d1 d2 0 (Fin.rev ⟨0, by omega⟩)) ^ 2 * ceMuP d1 d2 = _
      rw [show (Fin.rev (⟨0, by omega⟩ : Fin 3)) = 2 by decide]
      show (2 / 3 * Real.sqrt 2 / ceGP d1 d2) ^ 2 * ceMuP d1 d2 = ceC1 d1 d2
      rw [div_pow, mul_pow, hs2, hgp2, ceC1]
      ring
    · show (ceV d1 d2 1 (Fin.rev ⟨0, by omega⟩)) ^ 2 * ceMuP d1 d2 = _
      rw [show (Fin.rev (⟨0, by omega⟩ : Fin 3)) = 2 by decide]
      show ((ceMuP d1 d2 - d1) / (Real.sqrt 2 * ceGP d1 d2)) ^ 2 * ceMuP d1 d2 =
        ceC2 d1 d2
      rw [div_pow, mul_pow, hs2, hgp2, ceC2]
      ring
    · show (ceV d1 d2 2 (Fin.rev ⟨0, by omega⟩)) ^ 2 * ceMuP d1 d2 = _
      rw [show (Fin.rev (⟨0, by omega⟩ : Fin 3)) = 2 by decide]
      show ((ceMuP d1 d2 - d1) / (Real.sqrt 2 * ceGP d1 d2)) ^ 2 * ceMuP d1 d2 =
        ceC2 d1 d2
      rw [div_pow, mul_pow, hs2, hgp2, ceC2]
      ring

/-- Helper: Vieta-style product of the two block eigenvector slopes. -/
theorem ce_tp_tm (d1 d2 : ℝ) :
    (ceMuP d1 d2 - d1) * (ceMuM d1 d2 - d1) = -(8/9) := by
  have hs : Real.sqrt (ceDisc d1 d2) ^ 2 = ceDisc d1 d2 :=
    Real.sq_sqrt (by rw [ceDisc]; positivity)
  rw [ceDisc] at hs
  rw [ceMuP, ceMuM, ceDisc]
  linear_combination (-(1:ℝ)/4) * hs

/-- Helper: characteristic identity of the larger block eigenvalue. -/
theorem ce_charP (d1 d2 : ℝ) :
    (ceMuP d1 d2 - d1) * (ceMuP d1 d2 - (d2 - 1/24)) = 8/9 := by
  have hs : Real.sqrt (ceDisc d1 d2) ^ 2 = ceDisc d1 d2 :=
    Real.sq_sqrt (by rw [ceDisc]; positivity)
  rw [ceDisc] at hs
  rw [ceMuP, ceDisc]
  linear_combination ((1:ℝ)/4) * hs

/-- Helper: characteristic identity of the smaller block eigenvalue. -/
theorem ce_charM (d1 d2 : ℝ) :
    (ceMuM d1 d2 - d1) * (ceMuM d1 d2 - (d2 - 1/24)) = 8/9 := by
  have hs : Real.sqrt (ceDisc d1 d2) ^ 2 = ceDisc d1 d2 :=
    Real.sq_sqrt (by rw [ceDisc]; positivity)
  rw [ceDisc] at hs
  rw [ceMuM, ceDisc]
  linear_combination ((1:ℝ)/4) * hs

/-- Helper: the closed-form eigenvector columns are orthonormal. -/
theorem ceV_orth (d1 d2 : ℝ) :
    (ceV d1 d2).transpose * ceV d1 d2 = 1 := by
  have hs2' : Real.sqrt 2 * Real.sqrt 2 = 2 := Real.mul_self_sqrt (by norm_num)
  have hgp2 : ceGP d1 d2 * ceGP d1 d2 = 8/9 + (ceMuP d1 d2 - d1)^2 :=
    Real.mul_self_sqrt (by positivity)
  have hgm2 : ceGM d1 d2 * ceGM d1 d2 = 8/9 + (ceMuM d1 d2 - d1)^2 :=
    Real.mul_self_sqrt (by positivity)
  have hgpne : ceGP d1 d2 ≠ 0 := by
    rw [ceGP]; exact Real.sqrt_ne_zero'.mpr (by positivity)
  have hgmne : ceGM d1 d2 ≠ 0 := by
    rw [ceGM]; exact Real.sqrt_ne_zero'.mpr (by positivity)
  have hs2ne : Real.sqrt 2 ≠ 0 := by positivity
  have htptm := ce_tp_tm d1 d2
  funext i j
  fin_cases i <;> fin_cases j
  · simp only [Matrix.mul_apply, Fin.sum_univ_three, Matrix.transpose_apply,
      ceV, Matrix.one_apply, Matrix.cons_val', Matrix.cons_val_zero,
      Matrix.cons_val_one, Matrix.head_cons, Matrix.cons_val_two,
      Matrix.tail_cons, Matrix.empty_val', Matrix.cons_val_fin_one,
      Matrix.of_apply, Fin.ext_iff]
    norm_num
    field_simp
    linear_combination (Real.sqrt 2 ^ 2 * ceGM d1 d2 ^ 4 *
        (4 * Real.sqrt 2 ^ 2 + 8 - 9 * ceGM d1 d2 ^ 2)) * hs2' +
      (-(18:ℝ) * Real.sqrt 2 ^ 2 * ceGM d1 d2 ^ 4) * hgm2
  · simp only [Matrix.mul_apply, Fin.sum_univ_three, Matrix.transpose_apply,
      ceV, Matrix.one_apply, Matrix.cons_val', Matrix.cons_val_zero,
      Matrix.cons_val_one, Matrix.head_cons, Matrix.cons_val_two,
      Matrix.tail_cons, Matrix.empty_val', Matrix.cons_val_fin_one,
      Matrix.of_apply, Fin.ext_iff]
    norm_num
  · simp only [Matrix.mul_apply, Fin.sum_univ_three, Matrix.transpose_apply,
      ceV, Matrix.one_apply, Matrix.cons_val', Matrix.cons_val_zero,
      Matrix.cons_val_one, Matrix.head_cons, Matrix.cons_val_two,
      Matrix.tail_cons, Matrix.empty_val', Matrix.cons_val_fin_one,
      Matrix.of_apply, Fin.ext_iff]
    norm_num
    field_simp
    linear_combination (4 * Real.sqrt 2 ^ 2 * ceGM d1 d2 ^ 2 * ceGP d1 d2 ^ 2 *
        (Real.sqrt 2 ^ 2 + 2)) * hs2' +
      (18 * Real.sqrt 2 ^ 2 * ceGM d1 d2 ^ 2 * ceGP d1 d2 ^ 2) * htptm
  · simp only [Matrix.mul_apply, Fin.sum_univ_three, Matrix.transpose_apply,
      ceV, Matrix.one_apply, Matrix.cons_val', Matrix.cons_val_zero,
      Matrix.cons_val_one, Matrix.head_cons, Matrix.cons_val_two,
      Matrix.tail_cons, Matrix.empty_val', Matrix.cons_val_fin_one,
      Matrix.of_apply, Fin.ext_iff]
    norm_num
  · simp only [Matrix.mul_apply, Fin.sum_univ_three, Matrix.transpose_apply,
      ceV, Matrix.one_apply, Matrix.cons_val', Matrix.cons_val_zero,
      Matrix.cons_val_one, Matrix.head_cons, Matrix.cons_val_two,
      Matrix.tail_cons, Matrix.empty_val', Matrix.cons_val_fin_one,
      Matrix.of_apply, Fin.ext_iff]
    norm_num
    field_simp
  · simp only [Matrix.mul_apply, Fin.sum_univ_three, Matrix.transpose_apply,
      ceV, Matrix.one_apply, Matrix.cons_val', Matrix.cons_val_zero,
      Matrix.cons_val_one, Matrix.head_cons, Matrix.cons_val_two,
      Matrix.tail_cons, Matrix.empty_val', Matrix.cons_val_fin_one,
      Matrix.of_apply, Fin.ext_iff]
    norm_num
  · simp only [Matrix.mul_apply, Fin.sum_univ_three, Matrix.transpose_apply,
      ceV, Matrix.one_apply, Matrix.cons_val', Matrix.cons_val_zero,
      Matrix.cons_val_one, Matrix.head_cons, Matrix.cons_val_two,
      Matrix.tail_cons, Matrix.empty_val', Matrix.cons_val_fin_one,
      Matrix.of_apply, Fin.ext_iff]
    norm_num
    field_simp
    linear_combination (4 * Real.sqrt 2 ^ 2 * ceGM d1 d2 ^ 2 * ceGP d1 d2 ^ 2 *
        (Real.sqrt 2 ^ 2 + 2)) * hs2' +
      (18 * Real.sqrt 2 ^ 2 * ceGM d1 d2 ^ 2 * ceGP d1 d2 ^ 2) * htptm
  · simp only [Matrix.mul_apply, Fin.sum_univ_three, Matrix.transpose_apply,
      ceV, Matrix.one_apply, Matrix.cons_val', Matrix.cons_val_zero,
      Matrix.cons_val_one, Matrix.head_cons, Matrix.cons_val_two,
      Matrix.tail_cons, Matrix.empty_val', Matrix.cons_val_fin_one,
      Matrix.of_apply, Fin.ext_iff]
    norm_num
  · simp only [Matrix.mul_apply, Fin.sum_univ_three, Matrix.transpose_apply,
      ceV, Matrix.one_apply, Matrix.cons_val', Matrix.cons_val_zero,
      Matrix.cons_val_one, Matrix.head_cons, Matrix.cons_val_two,
      Matrix.tail_cons, Matrix.empty_val', Matrix.cons_val_fin_one,
      Matrix.of_apply, Fin.ext_iff]
    norm_num
    field_simp
    linear_combination (Real.sqrt 2 ^ 2 * ceGP d1 d2 ^ 4 *
        (4 * Real.sqrt 2 ^ 2 + 8 - 9 * ceGP d1 d2 ^ 2)) * hs2' +
      (-(18:ℝ) * Real.sqrt 2 ^ 2 * ceGP d1 d2 ^ 4) * hgp2

/-- Helper: the closed-form columns satisfy the eigenvalue equation. -/
theorem ceMV (d1 d2 : ℝ) :
    ceMatrix d1 d2 * ceV d1 d2 = ceV d1 d2 * Matrix.diagonal (ceL d1 d2) := by
  have hs2' : Real.sqrt 2 * Real.sqrt 2 = 2 := Real.mul_self_sqrt (by norm_num)
  have hgpne : ceGP d1 d2 ≠ 0 := by
    rw [ceGP]; exact Real.sqrt_ne_zero'.mpr (by positivity)
  have hgmne : ceGM d1 d2 ≠ 0 := by
    rw [ceGM]; exact Real.sqrt_ne_zero'.mpr (by positivity)
  have hs2ne : Real.sqrt 2 ≠ 0 := by positivity
  have hcharP := ce_charP d1 d2
  have hcharM := ce_charM d1 d2
  funext i j
  fin_cases i <;> fin_cases j
  · simp only [Matrix.mul_apply, Fin.sum_univ_three, Matrix.mul_diagonal,
      ceMatrix, ceV, ceL, ceMu0, Matrix.diagonal_apply, Matrix.cons_val',
      Matrix.cons_val_zero, Matrix.cons_val_one, Matrix.head_cons,
      Matrix.cons_val_two, Matrix.tail_cons, Matrix.empty_val',
      Matrix.cons_val_fin_one, Matrix.of_apply, Fin.ext_iff]
    norm_num
    field_simp
    linear_combination (54 * Real.sqrt 2 * ceGM d1 d2 ^ 3 *
      (d1 - ceMuM d1 d2)) * hs2'
  · simp only [Matrix.mul_apply, Fin.sum_univ_three, Matrix.mul_diagonal,
      ceMatrix, ceV, ceL, ceMu0, Matrix.diagonal_apply, Matrix.cons_val',
      Matrix.cons_val_zero, Matrix.cons_val_one, Matrix.head_cons,
      Matrix.cons_val_two, Matrix.tail_cons, Matrix.empty_val',
      Matrix.cons_val_fin_one, Matrix.of_apply, Fin.ext_iff]
    norm_num
  · simp only [Matrix.mul_apply, Fin.sum_univ_three, Matrix.mul_diagonal,
      ceMatrix, ceV, ceL, ceMu0, Matrix.diagonal_apply, Matrix.cons_val',
      Matrix.cons_val_zero, Matrix.cons_val_one, Matrix.head_cons,
      Matrix.cons_val_two, Matrix.tail_cons, Matrix.empty_val',
      Matrix.cons_val_fin_one, Matrix.of_apply, Fin.ext_iff]
    norm_num
    field_simp
    linear_combination (54 * Real.sqrt 2 * ceGP d1 d2 ^ 3 *
      (d1 - ceMuP d1 d2)) * hs2'
  · simp only [Matrix.mul_apply, Fin.sum_univ_three, Matrix.mul_diagonal,
      ceMatrix, ceV, ceL, ceMu0, Matrix.diagonal_apply, Matrix.cons_val',
      Matrix.cons_val_zero, Matrix.cons_val_one, Matrix.head_cons,
      Matrix.cons_val_two, Matrix.tail_cons, Matrix.empty_val',
      Matrix.cons_val_fin_one, Matrix.of_apply, Fin.ext_iff]
    norm_num
    field_simp
    linear_combination (-(216:ℝ) * Real.sqrt 2 ^ 2 * ceGM d1 d2 ^ 3) * hcharM +
      (96 * Real.sqrt 2 ^ 2 * ceGM d1 d2 ^ 3) * hs2'
  · simp only [Matrix.mul_apply, Fin.sum_univ_three, Matrix.mul_diagonal,
      ceMatrix, ceV, ceL, ceMu0, Matrix.diagonal_apply, Matrix.cons_val',
      Matrix.cons_val_zero, Matrix.cons_val_one, Matrix.head_cons,
      Matrix.cons_val_two, Matrix.tail_cons, Matrix.empty_val',
      Matrix.cons_val_fin_one, Matrix.of_apply, Fin.ext_iff]
    norm_num
    field_simp
    ring
  · simp only [Matrix.mul_apply, Fin.sum_univ_three, Matrix.mul_diagonal,
      ceMatrix, ceV, ceL, ceMu0, Matrix.diagonal_apply, Matrix.cons_val',
      Matrix.cons_val_zero, Matrix.cons_val_one, Matrix.head_cons,
      Matrix.cons_val_two, Matrix.tail_cons, Matrix.empty_val',
      Matrix.cons_val_fin_one, Matrix.of_apply, Fin.ext_iff]
    norm_num
    field_simp
    linear_combination (-(216:ℝ) * Real.sqrt 2 ^ 2 * ceGP d1 d2 ^ 3) * hcharP +
      (96 * Real.sqrt 2 ^ 2 * ceGP d1 d2 ^ 3) * hs2'
  · simp only [Matrix.mul_apply, Fin.sum_univ_three, Matrix.mul_diagonal,
      ceMatrix, ceV, ceL, ceMu0, Matrix.diagonal_apply, Matrix.cons_val',
      Matrix.cons_val_zero, Matrix.cons_val_one, Matrix.head_cons,
      Matrix.cons_val_two, Matrix.tail_cons, Matrix.empty_val',
      Matrix.cons_val_fin_one, Matrix.of_apply, Fin.ext_iff]
    norm_num
    field_simp
    linear_combination (-(216:ℝ) * Real.sqrt 2 ^ 2 * ceGM d1 d2 ^ 3) * hcharM +
      (96 * Real.sqrt 2 ^ 2 * ceGM d1 d2 ^ 3) * hs2'
  · simp only [Matrix.mul_apply, Fin.sum_univ_three, Matrix.mul_diagonal,
      ceMatrix, ceV, ceL, ceMu0, Matrix.diagonal_apply, Matrix.cons_val',
      Matrix.cons_val_zero, Matrix.cons_val_one, Matrix.head_cons,
      Matrix.cons_val_two, Matrix.tail_cons, Matrix.empty_val',
      Matrix.cons_val_fin_one, Matrix.of_apply, Fin.ext_iff]
    norm_num
    field_simp
    ring
  · simp only [Matrix.mul_apply, Fin.sum_univ_three, Matrix.mul_diagonal,
      ceMatrix, ceV, ceL, ceMu0, Matrix.diagonal_apply, Matrix.cons_val',
      Matrix.cons_val_zero, Matrix.cons_val_one, Matrix.head_cons,
      Matrix.cons_val_two, Matrix.tail_cons, Matrix.empty_val',
      Matrix.cons_val_fin_one, Matrix.of_apply, Fin.ext_iff]
    norm_num
    field_simp
    linear_combination (-(216:ℝ) * Real.sqrt 2 ^ 2 * ceGP d1 d2 ^ 3) * hcharP +
      (96 * Real.sqrt 2 ^ 2 * ceGP d1 d2 ^ 3) * hs2'

/-- Helper: the counterexample kernel is a genuine symmetric
eigendecomposition on every structured matrix. -/
theorem ceEigh_valid (d1 d2 : ℝ) :
    IsSymmEigh (ceMatrix d1 d2) (eighCE (ceMatrix d1 d2)) := by
  rw [eighCE_ceMatrix]
  exact ⟨ceV_orth d1 d2, ceMV d1 d2⟩

/-- Helper: exact value of the discriminant at the SMC starting point. -/
theorem ceDisc_val : ceDisc ((64:ℝ)/69) (167/192) = 23176603/6500352 := by
  rw [ceDisc]; norm_num

/-- Helper: rational lower bound on the first square root. -/
theorem s1_lb :
    (1888236781/1000000000 : ℝ) ≤ Real.sqrt (ceDisc (64/69) (167/192)) := by
  rw [ceDisc_val]
  exact (Real.le_sqrt (by norm_num) (by norm_num)).mpr (by norm_num)

/-- Helper: rational upper bound on the first square root. -/
theorem s1_ub :
    Real.sqrt (ceDisc ((64:ℝ)/69) (167/192)) ≤ 1888236784/1000000000 := by
  rw [ceDisc_val]
  exact Real.sqrt_le_iff.mpr ⟨by norm_num, by norm_num⟩

/-- Helper: first-iteration eigenvalue sign and order conditions. -/
theorem it1_hm : ceMuM ((64:ℝ)/69) (167/192) < 0 := by
  have h := s1_lb
  rw [ceMuM]
  nlinarith [h]

/-- Helper: first-iteration middle eigenvalue is positive. -/
theorem it1_h0 : 0 < ceMu0 ((167:ℝ)/192) := by
  rw [ceMu0]; norm_num

/-- Helper: first-iteration top eigenvalue dominates. -/
theorem it1_h0p : ceMu0 ((167:ℝ)/192) < ceMuP (64/69) (167/192) := by
  have h := s1_lb
  rw [ceMu0, ceMuP]
  nlinarith [h]

/-- Helper: square of the first square root. -/
theorem s1_sq :
    Real.sqrt (ceDisc ((64:ℝ)/69) (167/192)) ^ 2 = 23176603/6500352 := by
  rw [Real.sq_sqrt (by rw [ceDisc]; positivity), ceDisc_val]

/-- Helper: rational bounds on the first communality after one iteration. -/
theorem c11_bounds :
    (479467/500000 : ℝ) ≤ ceC1 (64/69) (167/192) ∧
      ceC1 ((64:ℝ)/69) (167/192) ≤ 958937/1000000 := by
  have hl := s1_lb
  have hu := s1_ub
  have hsq := s1_sq
  have hden : (0:ℝ) < 8/9 + (ceMuP (64/69) (167/192) - 64/69)^2 := by positivity
  constructor
  · rw [ceC1, le_div_iff₀ hden, ceMuP]
    nlinarith [hl, hu, hsq]
  · rw [ceC1, div_le_iff₀ hden, ceMuP]
    nlinarith [hl, hu, hsq]

/-- Helper: rational bounds on the second communality after one iteration. -/
theorem c12_bounds :
    (86301/200000 : ℝ) ≤ ceC2 (64/69) (167/192) ∧
      ceC2 ((64:ℝ)/69) (167/192) ≤ 107877/250000 := by
  have hl := s1_lb
  have hu := s1_ub
  have hsq := s1_sq
  have hden : (0:ℝ) < 2 * (8/9 + (ceMuP (64/69) (167/192) - 64/69)^2) := by
    positivity
  constructor
  · rw [ceC2, le_div_iff₀ hden, ceMuP]
    nlinarith [hl, hu, hsq]
  · rw [ceC2, div_le_iff₀ hden, ceMuP]
    nlinarith [hl, hu, hsq]

/-- Helper: rational lower bound on the second square root. -/
theorem s2_lb :
    (1969623/1000000 : ℝ) ≤ Real.sqrt
      (ceDisc (ceC1 (64/69) (167/192)) (ceC2 (64/69) (167/192))) := by
  refine (Real.le_sqrt (by norm_num) (by rw [ceDisc]; positivity)).mpr ?_
  rw [ceDisc]
  nlinarith [c11_bounds.1, c11_bounds.2, c12_bounds.1, c12_bounds.2,
    sq_nonneg (ceC1 ((64:ℝ)/69) (167/192) - ceC2 (64/69) (167/192) + 1/24
      - 569092/1000000)]

/-- Helper: rational upper bound on the second square root. -/
theorem s2_ub :
    Real.sqrt (ceDisc (ceC1 ((64:ℝ)/69) (167/192)) (ceC2 (64/69) (167/192)))
      ≤ 1969628/1000000 := by
  refine Real.sqrt_le_iff.mpr ⟨by norm_num, ?_⟩
  rw [ceDisc]
  nlinarith [c11_bounds.1, c11_bounds.2, c12_bounds.1, c12_bounds.2]

/-- Helper: second-iteration eigenvalue sign and order conditions. -/
theorem it2_hm :
    ceMuM (ceC1 ((64:ℝ)/69) (167/192)) (ceC2 (64/69) (167/192)) < 0 := by
  have h := s2_lb
  rw [ceMuM]
  nlinarith [h, c11_bounds.2, c12_bounds.2]

/-- Helper: second-iteration middle eigenvalue is positive. -/
theorem it2_h0 : 0 < ceMu0 (ceC2 ((64:ℝ)/69) (167/192)) := by
  rw [ceMu0]
  nlinarith [c12_bounds.1]

/-- Helper: second-iteration top eigenvalue dominates. -/
theorem it2_h0p :
    ceMu0 (ceC2 ((64:ℝ)/69) (167/192)) <
      ceMuP (ceC1 (64/69) (167/192)) (ceC2 (64/69) (167/192)) := by
  have h := s2_lb
  rw [ceMu0, ceMuP]
  nlinarith [h, c11_bounds.1, c12_bounds.2]

/-- Helper: the first iteration does not trigger the convergence break at
tolerance 1e-6. -/
theorem it1_no_conv :
    ¬ (Real.sqrt (∑ i, ((![(64:ℝ)/69, 167/192, 167/192]) i -
        (![ceC1 (64/69) (167/192), ceC2 (64/69) (167/192),
          ceC2 (64/69) (167/192)]) i) ^ 2) < 1/1000000) := by
  rw [not_lt]
  refine (Real.le_sqrt (by norm_num) ?_).mpr ?_
  · positivity
  · rw [Fin.sum_univ_three]
    simp only [Matrix.cons_val_zero, Matrix.cons_val_one, Matrix.head_cons,
      Matrix.cons_val_two, Matrix.tail_cons]
    nlinarith [c12_bounds.2, sq_nonneg ((64:ℝ)/69 - ceC1 (64/69) (167/192)),
      sq_nonneg ((167:ℝ)/192 - ceC2 (64/69) (167/192) - 438283/1000000)]

/-- C8 (amended): for every eigendecomposition kernel and every input on
which `fit_pa` succeeds, the returned eigenvalue sequence is sorted
descending and every returned communality value is nonnegative.  (The upper
bound 1 of the original claim fails: see the Heywood counterexample.) -/
theorem fit_pa_descending_nonneg {nobs k : ℕ}
    (eigh : Matrix (Fin k) (Fin k) ℝ → (Fin k → ℝ) × Matrix (Fin k) (Fin k) ℝ)
    (endog : Matrix (Fin nobs) (Fin k) ℝ)
    (n_factor n_max_iter : ℕ) (tolerance : ℝ) (SMC : Bool) (out : PaOut k)
    (h : fit_pa eigh endog n_factor n_max_iter tolerance SMC = .ok out) :
    Antitone out.eigenvals ∧ ∀ i, 0 ≤ out.communality i := by
  simp only [fit_pa] at h
  split_ifs at h <;> try exact absurd h (by simp)
  all_goals (
    generalize hw : writeDiag _ = w at h
    cases w with
    | error e => simp at h
    | ok c0 =>
      obtain ⟨c', hc'⟩ := paGo_is_step eigh (corrcoef endog) n_factor tolerance
        n_max_iter c0
      have hout : out = paStep eigh (corrcoef endog) n_factor c' := by
        simp only [Except.ok.injEq] at h
        rw [← h, hc']
      rw [hout]
      exact ⟨paStep_eigenvals_antitone _ _ _ _, fun i =>
        paStep_communality_nonneg _ _ _ _ i⟩)

/-- Helper: the counterexample run passes validation and enters the loop at
the squared-multiple-correlation start vector. -/
theorem ceFit_eval :
    ceFit = .ok (paGo eighCE RCE 1 (1/1000000) 2
      ![(64:ℝ)/69, 167/192, 167/192]) := by
  have hvec : (fun j => 1 - (RCEinv j j)⁻¹) =
      (![(64:ℝ)/69, 167/192, 167/192]) := by
    funext j
    fin_cases j <;>
      · simp only [RCEinv, Matrix.cons_val', Matrix.cons_val_zero,
          Matrix.cons_val_one, Matrix.head_cons, Matrix.cons_val_two,
          Matrix.tail_cons, Matrix.empty_val', Matrix.cons_val_fin_one,
          Matrix.of_apply]
        norm_num
  rw [ceFit]
  simp only [fit_pa, corrcoef_dataCE, RCE_rank, RCE_inv_eq]
  norm_num
  rw [writeDiag_oneD, hvec]

/-- Helper: the communality of the first variable after the two iterations of
the counterexample run. -/
theorem ceGo_comm :
    (paGo eighCE RCE 1 (1/1000000) 2
      ![(64:ℝ)/69, 167/192, 167/192]).communality 0 = ceFinalComm := by
  have hstep1 := paStep_ce (64/69) (167/192) it1_hm it1_h0 it1_h0p
  have hstep2 := paStep_ce (ceC1 (64/69) (167/192)) (ceC2 (64/69) (167/192))
    it2_hm it2_h0 it2_h0p
  have h2 : paGo eighCE RCE 1 (1/1000000) 2 ![(64:ℝ)/69, 167/192, 167/192] =
      if Real.sqrt (∑ i, ((![(64:ℝ)/69, 167/192, 167/192]) i -
          (paStep eighCE RCE 1
            ![(64:ℝ)/69, 167/192, 167/192]).communality i) ^ 2) < 1/1000000
      then paStep eighCE RCE 1 ![(64:ℝ)/69, 167/192, 167/192]
      else paGo eighCE RCE 1 (1/1000000) 1
        (paStep eighCE RCE 1
          ![(64:ℝ)/69, 167/192, 167/192]).communality := rfl
  rw [h2, hstep1.2, if_neg it1_no_conv]
  rw [show paGo eighCE RCE 1 (1/1000000) 1
      ![ceC1 (64/69) (167/192), ceC2 (64/69) (167/192),
        ceC2 (64/69) (167/192)] =
    paStep eighCE RCE 1
      ![ceC1 (64/69) (167/192), ceC2 (64/69) (167/192),
        ceC2 (64/69) (167/192)] from rfl]
  rw [hstep2.2]
  rfl

/-- C8 (counterexample): on the concrete 6 × 3 data set `dataCE` (with a
genuine eigendecomposition kernel, as certified by the two `IsSymmEigh`
conjuncts for the two reduced matrices the run eigendecomposes), the
principal-axis fit with n_factor = 1, n_max_iter = 2, tolerance 1e-6 and SMC
succeeds and returns a communality strictly greater than 1: communality
values are not bounded by 1 (a Heywood case), refuting the original claim. -/
theorem fit_pa_heywood_counterexample :
    (ceFit.map fun o => o.communality 0) = .ok ceFinalComm ∧
    1 < ceFinalComm ∧
    IsSymmEigh (ceMatrix (64/69) (167/192))
      (eighCE (ceMatrix (64/69) (167/192))) ∧
    IsSymmEigh (ceMatrix (ceC1 (64/69) (167/192)) (ceC2 (64/69) (167/192)))
      (eighCE (ceMatrix (ceC1 (64/69) (167/192))
        (ceC2 (64/69) (167/192)))) := by
  refine ⟨?_, ?_, ceEigh_valid _ _, ceEigh_valid _ _⟩
  · rw [ceFit_eval]
    simp only [Except.map]
    rw [ceGo_comm]
  · have hs2l := s2_lb
    have hs2u := s2_ub
    have hc11l := c11_bounds.1
    have hc11u := c11_bounds.2
    have hc12l := c12_bounds.1
    have hc12u := c12_bounds.2
    have hden : (0:ℝ) < 8/9 +
        (ceMuP (ceC1 (64/69) (167/192)) (ceC2 (64/69) (167/192)) -
          ceC1 (64/69) (167/192))^2 := by positivity
    have hmul : (165919/100000 : ℝ) ≤
        ceMuP (ceC1 (64/69) (167/192)) (ceC2 (64/69) (167/192)) := by
      rw [ceMuP]; linarith
    have hmuu : ceMuP (ceC1 ((64:ℝ)/69) (167/192)) (ceC2 (64/69) (167/192)) ≤
        165921/100000 := by
      rw [ceMuP]; linarith
    have hx1 : ceMuP (ceC1 ((64:ℝ)/69) (167/192)) (ceC2 (64/69) (167/192)) -
        ceC1 (64/69) (167/192) ≤ 700276/1000000 := by linarith
    have hx2 : (700253/1000000 : ℝ) ≤
        ceMuP (ceC1 (64/69) (167/192)) (ceC2 (64/69) (167/192)) -
          ceC1 (64/69) (167/192) := by linarith
    rw [ceFinalComm, ceC1, lt_div_iff₀ hden]
    nlinarith [hx1, hx2, hmul]

/-- Witness for the amended C8 theorem at the concrete counterexample run,
where `fit_pa` succeeds. -/
theorem fit_pa_descending_nonneg_witness :
    (fit_pa eighCE dataCE 1 2 (1/1000000) true = .ok (paGo eighCE RCE 1
      (1/1000000) 2 ![(64:ℝ)/69, 167/192, 167/192])) ∧
    (Antitone (paGo eighCE RCE 1 (1/1000000) 2
        ![(64:ℝ)/69, 167/192, 167/192]).eigenvals ∧
      ∀ i, 0 ≤ (paGo eighCE RCE 1 (1/1000000) 2
        ![(64:ℝ)/69, 167/192, 167/192]).communality i) :=
  ⟨ceFit_eval, fit_pa_descending_nonneg eighCE dataCE 1 2 (1/1000000) true _
    ceFit_eval⟩

end Spec2Proof
